import Mathlib

/-!
Shallow embedding of the algorithmic core of `src/App.js`
(correlation-explorer): the Pearson correlation function, the random
linear dataset generator, the Anscombe quartet constants, the drag
mutation, and the controller state machine (preset selection, slider,
regenerate).

Conventions of the embedding:
* JS numbers are modelled as exact rationals (`ℚ`); `Math.sqrt` and the
  final correlation value live in `ℝ` via `Real.sqrt`.
* `Math.random()` is modelled as a stream `rand : ℕ → ℚ` of draws (the
  i-th element's draw), with the contract `0 ≤ rand i < 1` supplied as a
  hypothesis where needed.
* `Date.now()` is modelled as a stream `now : ℕ → ℕ` of millisecond
  timestamps (the i-th element's call).
* The id strings built by template interpolation — a generated point's
  id `${Date.now()}-${i}` and a reference point's id `${k}-${i}` — are
  modelled by their components, since the interpolation map from the
  components to the string is injective (decimal digits never contain
  the separator, and the two shapes are distinguished by their first
  segment).
-/

/-- A point id: either a generated id (timestamp and index, the code's
template string with a number before the dash) or a reference id (the
Anscombe key and index, the code's template string with a letter before
the dash). -/
inductive Ident where
  | gen (timestamp idx : ℕ)
  | ref (key : String) (idx : ℕ)
deriving DecidableEq

/-- A data point `{ id, x, y }` as produced by the generators in
`src/App.js`. -/
structure Point where
  id : Ident
  x : ℚ
  y : ℚ
deriving DecidableEq

/-- Local `meanX` of `correlation` (line 17): `points.reduce((a,p) => a + p.x, 0) / n`. -/
def meanX (pts : List Point) : ℚ :=
  (pts.map Point.x).sum / pts.length

/-- Local `meanY` of `correlation` (line 18): `points.reduce((a,p) => a + p.y, 0) / n`. -/
def meanY (pts : List Point) : ℚ :=
  (pts.map Point.y).sum / pts.length

/-- The accumulator `num` of `correlation`'s loop (lines 22-28):
`num += dx * dy` with `dx = p.x - meanX`, `dy = p.y - meanY`. -/
def num (pts : List Point) : ℚ :=
  (pts.map fun p => (p.x - meanX pts) * (p.y - meanY pts)).sum

/-- The accumulator `denomX` of `correlation`'s loop: `denomX += dx * dx`. -/
def denomX (pts : List Point) : ℚ :=
  (pts.map fun p => (p.x - meanX pts) * (p.x - meanX pts)).sum

/-- The accumulator `denomY` of `correlation`'s loop: `denomY += dy * dy`. -/
def denomY (pts : List Point) : ℚ :=
  (pts.map fun p => (p.y - meanY pts) * (p.y - meanY pts)).sum

/-- Function `correlation(points)` (lines 14-30): returns `0` when
`points.length < 2`, returns `0` when `denomX * denomY === 0`, and
otherwise `num / Math.sqrt(denomX * denomY)`. -/
noncomputable def correlation (pts : List Point) : ℝ :=
  if pts.length < 2 then 0
  else if denomX pts * denomY pts = 0 then 0
  else (num pts : ℝ) / Real.sqrt ((denomX pts * denomY pts : ℚ) : ℝ)

/-- The Pearson product-moment coefficient exactly as the specification
words it: `r = Σ(dx·dy) / sqrt(Σdx² · Σdy²)` with `dx = x - meanX`,
`dy = y - meanY` and the arithmetic means. Stated independently of
`correlation` so that the two can be compared. -/
noncomputable def pearsonSpec (pts : List Point) : ℝ :=
  (((pts.map fun p => (p.x - meanX pts) * (p.y - meanY pts)).sum : ℚ) : ℝ) /
    Real.sqrt ((((pts.map fun p => (p.x - meanX pts) ^ 2).sum *
      (pts.map fun p => (p.y - meanY pts) ^ 2).sum : ℚ)) : ℝ)

/-- Function `randomLinear(slope, noise)` (lines 33-38): twenty points, the i-th
(0-based) having `x = i + 1`,
`y = slope * x + (Math.random() - 0.5) * noise * 10 + 10`, and id built
from `Date.now()` and `i`. -/
def randomLinear (slope noise : ℚ) (now : ℕ → ℕ) (rand : ℕ → ℚ) : List Point :=
  (List.range 20).map fun i =>
    { id := Ident.gen (now i) i
      x := (i : ℚ) + 1
      y := slope * ((i : ℚ) + 1) + (rand i - 0.5) * noise * 10 + 10 }

/-- Function `randomLinearWithCorrelation(r, sign)` (lines 41-48):
`slope = sign * r`, `noise = 1.5 - r * 1.5 + 0.2`, then `randomLinear`. -/
def randomLinearWithCorrelation (r sign : ℚ) (now : ℕ → ℕ) (rand : ℕ → ℚ) : List Point :=
  randomLinear (sign * r) (1.5 - r * 1.5 + 0.2) now rand

/-- The `anscombe.A` constant (lines 52-55) after the id-stamping pass of
lines 69-71 (`id = `${k}-${i}``). -/
def anscombeA : List Point :=
  [⟨.ref "A" 0, 10, 8.04⟩, ⟨.ref "A" 1, 8, 6.95⟩, ⟨.ref "A" 2, 13, 7.58⟩,
   ⟨.ref "A" 3, 9, 8.81⟩, ⟨.ref "A" 4, 11, 8.33⟩, ⟨.ref "A" 5, 14, 9.96⟩,
   ⟨.ref "A" 6, 6, 7.24⟩, ⟨.ref "A" 7, 4, 4.26⟩, ⟨.ref "A" 8, 12, 10.84⟩,
   ⟨.ref "A" 9, 7, 4.82⟩, ⟨.ref "A" 10, 5, 5.68⟩]

/-- The `anscombe.B` constant (lines 56-59) with stamped ids. -/
def anscombeB : List Point :=
  [⟨.ref "B" 0, 10, 9.14⟩, ⟨.ref "B" 1, 8, 8.14⟩, ⟨.ref "B" 2, 13, 8.74⟩,
   ⟨.ref "B" 3, 9, 8.77⟩, ⟨.ref "B" 4, 11, 9.26⟩, ⟨.ref "B" 5, 14, 8.1⟩,
   ⟨.ref "B" 6, 6, 6.13⟩, ⟨.ref "B" 7, 4, 3.1⟩, ⟨.ref "B" 8, 12, 9.13⟩,
   ⟨.ref "B" 9, 7, 7.26⟩, ⟨.ref "B" 10, 5, 4.74⟩]

/-- The `anscombe.C` constant (lines 60-63) with stamped ids. -/
def anscombeC : List Point :=
  [⟨.ref "C" 0, 10, 7.46⟩, ⟨.ref "C" 1, 8, 6.77⟩, ⟨.ref "C" 2, 13, 12.74⟩,
   ⟨.ref "C" 3, 9, 7.11⟩, ⟨.ref "C" 4, 11, 7.81⟩, ⟨.ref "C" 5, 14, 8.84⟩,
   ⟨.ref "C" 6, 6, 6.08⟩, ⟨.ref "C" 7, 4, 5.39⟩, ⟨.ref "C" 8, 12, 8.15⟩,
   ⟨.ref "C" 9, 7, 6.42⟩, ⟨.ref "C" 10, 5, 5.73⟩]

/-- The `anscombe.D` constant (lines 64-67) with stamped ids. -/
def anscombeD : List Point :=
  [⟨.ref "D" 0, 8, 6.58⟩, ⟨.ref "D" 1, 8, 5.76⟩, ⟨.ref "D" 2, 8, 7.71⟩,
   ⟨.ref "D" 3, 8, 8.84⟩, ⟨.ref "D" 4, 8, 8.47⟩, ⟨.ref "D" 5, 8, 7.04⟩,
   ⟨.ref "D" 6, 8, 5.25⟩, ⟨.ref "D" 7, 19, 12.5⟩, ⟨.ref "D" 8, 8, 5.56⟩,
   ⟨.ref "D" 9, 8, 7.91⟩, ⟨.ref "D" 10, 8, 6.89⟩]

/-- The `anscombe` object (lines 51-71) as a lookup by key; a key other
than the four present ones would be `undefined` in JS, modelled as the
empty list (such a key is never reached from the app's presets). -/
def anscombe : String → List Point
  | "A" => anscombeA
  | "B" => anscombeB
  | "C" => anscombeC
  | "D" => anscombeD
  | _ => []

/-- Flag `isLinear` (lines 131-132): the preset is one of the three linear
variants. -/
def isLinear (presetKey : String) : Bool :=
  presetKey == "Lineare positiva" || presetKey == "Lineare negativa" ||
    presetKey == "Nessuna correlazione"

/-- Helper for `splitWords`: split a character list at each space,
accumulating the current word in reverse. -/
def splitCharsAux : List Char → List Char → List (List Char)
  | [], acc => [acc.reverse]
  | c :: cs, acc =>
      if c = ' ' then acc.reverse :: splitCharsAux cs []
      else splitCharsAux cs (c :: acc)

/-- The JS builtin `presetKey.split(" ")` (line 143): cut the string at
each single-space separator. Defined structurally over the character
list (rather than through `String.splitOn`, whose well-founded recursion
the kernel cannot evaluate); on the space-separated preset keys the two
agree with the JS builtin. -/
def splitWords (s : String) : List String :=
  (splitCharsAux s.data []).map String.mk

/-- The shared body of the `useEffect` (lines 135-146) and of
`regenerate` (lines 148-159): pick `r` and `sign` from the preset and
call `randomLinearWithCorrelation`, or look the reference dataset up by
the second word of the preset key (`anscombe[presetKey.split(" ")[1]]`). -/
def computePoints (presetKey : String) (correlationValue : ℚ)
    (now : ℕ → ℕ) (rand : ℕ → ℚ) : List Point :=
  if isLinear presetKey then
    let r := if presetKey == "Nessuna correlazione" then 0 else correlationValue
    let sign : ℚ := if presetKey == "Lineare negativa" then -1 else 1
    randomLinearWithCorrelation r sign now rand
  else
    anscombe ((splitWords presetKey).getD 1 "")

/-- The drag mutation of `DraggableDot.handleMove` (line 100):
`pts.map((p) => (p.id === payload.id ? { ...p, x: xVal, y: yVal } : p))`. -/
def dragPoint (pts : List Point) (i : Ident) (nx ny : ℚ) : List Point :=
  pts.map fun p => if p.id = i then { p with x := nx, y := ny } else p

/-- The state owned by `App` (lines 125-127): preset key, slider value,
and the live point set. -/
structure AppState where
  presetKey : String
  correlationValue : ℚ
  points : List Point
deriving DecidableEq

/-- The four entry points of the interaction surface. -/
inductive Event where
  | selectPreset (k : String)
  | setTarget (v : ℚ)
  | regenerate
  | drag (i : Ident) (nx ny : ℚ)

/-- One reactive step of `App`: a preset change or a slider change
re-runs the `useEffect` body (lines 135-146) with the new value, the
regenerate button runs `regenerate` (lines 148-159), and a pointer move
during a drag runs the `setPoints` mapper of line 100. -/
def step (s : AppState) (e : Event) (now : ℕ → ℕ) (rand : ℕ → ℚ) : AppState :=
  match e with
  | .selectPreset k =>
      { s with presetKey := k, points := computePoints k s.correlationValue now rand }
  | .setTarget v =>
      { s with correlationValue := v, points := computePoints s.presetKey v now rand }
  | .regenerate =>
      { s with points := computePoints s.presetKey s.correlationValue now rand }
  | .drag i nx ny =>
      { s with points := dragPoint s.points i nx ny }

/-- The initial state of `App` (lines 125-127): preset
`"Lineare positiva"`, slider `0.8`, points
`randomLinearWithCorrelation(0.8, 1)`. -/
def initState (now : ℕ → ℕ) (rand : ℕ → ℚ) : AppState :=
  { presetKey := "Lineare positiva"
    correlationValue := 0.8
    points := randomLinearWithCorrelation 0.8 1 now rand }

/-! ### Basic facts about the accumulators -/

lemma denomX_nonneg (pts : List Point) : 0 ≤ denomX pts := by
  apply List.sum_nonneg
  intro q hq
  obtain ⟨p, -, rfl⟩ := List.mem_map.1 hq
  exact mul_self_nonneg _

lemma denomY_nonneg (pts : List Point) : 0 ≤ denomY pts := by
  apply List.sum_nonneg
  intro q hq
  obtain ⟨p, -, rfl⟩ := List.mem_map.1 hq
  exact mul_self_nonneg _

/-- C1: for every dataset of at least two points in which neither variance
sum is zero, `correlation` returns the Pearson product-moment coefficient
`Σ(dx·dy) / sqrt(Σdx² · Σdy²)` with `dx = x - meanX`, `dy = y - meanY`. -/
theorem correlation_eq_pearsonSpec (pts : List Point) (h2 : 2 ≤ pts.length)
    (hx : denomX pts ≠ 0) (hy : denomY pts ≠ 0) :
    correlation pts = pearsonSpec pts := by
  have hlen : ¬ pts.length < 2 := by omega
  have hprod : denomX pts * denomY pts ≠ 0 := mul_ne_zero hx hy
  have hsqx : (pts.map fun p => (p.x - meanX pts) ^ 2).sum = denomX pts := by
    unfold denomX
    simp only [pow_two]
  have hsqy : (pts.map fun p => (p.y - meanY pts) ^ 2).sum = denomY pts := by
    unfold denomY
    simp only [pow_two]
  unfold correlation pearsonSpec
  rw [if_neg hlen, if_neg hprod, hsqx, hsqy]
  rfl

/-- Witness for C1 at the two-point dataset `(0,0), (1,1)`. -/
theorem correlation_eq_pearsonSpec_witness :
    2 ≤ ([⟨.gen 0 0, 0, 0⟩, ⟨.gen 0 1, 1, 1⟩] : List Point).length ∧
    denomX [⟨.gen 0 0, 0, 0⟩, ⟨.gen 0 1, 1, 1⟩] ≠ 0 ∧
    denomY [⟨.gen 0 0, 0, 0⟩, ⟨.gen 0 1, 1, 1⟩] ≠ 0 ∧
    correlation [⟨.gen 0 0, 0, 0⟩, ⟨.gen 0 1, 1, 1⟩] =
      pearsonSpec [⟨.gen 0 0, 0, 0⟩, ⟨.gen 0 1, 1, 1⟩] :=
  ⟨by decide, by norm_num [denomX, meanX], by norm_num [denomY, meanY],
    correlation_eq_pearsonSpec _ (by decide) (by norm_num [denomX, meanX])
      (by norm_num [denomY, meanY])⟩

/-- C2: `correlation` returns exactly `0` on fewer than two points and
exactly `0` when either variance sum vanishes, and on the remaining
path the divisor `sqrt(denomX · denomY)` is nonzero. -/
theorem correlation_zero_guards (pts : List Point) :
    (pts.length < 2 → correlation pts = 0) ∧
    (denomX pts = 0 ∨ denomY pts = 0 → correlation pts = 0) ∧
    (2 ≤ pts.length → denomX pts ≠ 0 → denomY pts ≠ 0 →
      Real.sqrt ((denomX pts * denomY pts : ℚ) : ℝ) ≠ 0) := by
  refine ⟨?_, ?_, ?_⟩
  · intro h
    simp [correlation, h]
  · intro h
    have hz : denomX pts * denomY pts = 0 := by
      rcases h with h | h <;> simp [h]
    simp [correlation, hz]
  · intro _ hx hy
    have hxpos : 0 < denomX pts := lt_of_le_of_ne (denomX_nonneg pts) (Ne.symm hx)
    have hypos : 0 < denomY pts := lt_of_le_of_ne (denomY_nonneg pts) (Ne.symm hy)
    have : (0 : ℝ) < ((denomX pts * denomY pts : ℚ) : ℝ) := by
      exact_mod_cast mul_pos hxpos hypos
    exact Real.sqrt_ne_zero'.2 this

/-- Witness for C2: the empty dataset, a constant-x dataset, and a
non-degenerate dataset. -/
theorem correlation_zero_guards_witness :
    correlation [] = 0 ∧
    correlation [⟨.gen 0 0, 1, 1⟩, ⟨.gen 0 1, 1, 2⟩] = 0 ∧
    Real.sqrt ((denomX [⟨.gen 0 0, 0, 0⟩, ⟨.gen 0 1, 1, 1⟩] *
      denomY [⟨.gen 0 0, 0, 0⟩, ⟨.gen 0 1, 1, 1⟩] : ℚ) : ℝ) ≠ 0 :=
  ⟨(correlation_zero_guards []).1 (by decide),
   (correlation_zero_guards _).2.1 (Or.inl (by norm_num [denomX, meanX])),
   (correlation_zero_guards _).2.2 (by decide) (by norm_num [denomX, meanX])
     (by norm_num [denomY, meanY])⟩

/-- C8: `correlation` is invariant under permutation of the input order. -/
theorem correlation_perm_inv (pts pts' : List Point) (h : pts.Perm pts') :
    correlation pts = correlation pts' := by
  have hlen : pts.length = pts'.length := h.length_eq
  have hmx : meanX pts = meanX pts' := by
    unfold meanX
    rw [(h.map Point.x).sum_eq, hlen]
  have hmy : meanY pts = meanY pts' := by
    unfold meanY
    rw [(h.map Point.y).sum_eq, hlen]
  have hnum : num pts = num pts' := by
    unfold num
    rw [hmx, hmy, (h.map _).sum_eq]
  have hdx : denomX pts = denomX pts' := by
    unfold denomX
    rw [hmx, (h.map _).sum_eq]
  have hdy : denomY pts = denomY pts' := by
    unfold denomY
    rw [hmy, (h.map _).sum_eq]
  unfold correlation
  rw [hlen, hnum, hdx, hdy]

/-- Witness for C8 at a concrete two-element swap. -/
theorem correlation_perm_inv_witness :
    ([⟨.gen 0 0, 0, 0⟩, ⟨.gen 0 1, 1, 1⟩] : List Point).Perm
      [⟨.gen 0 1, 1, 1⟩, ⟨.gen 0 0, 0, 0⟩] ∧
    correlation [⟨.gen 0 0, 0, 0⟩, ⟨.gen 0 1, 1, 1⟩] =
      correlation [⟨.gen 0 1, 1, 1⟩, ⟨.gen 0 0, 0, 0⟩] :=
  ⟨List.Perm.swap _ _ _, correlation_perm_inv _ _ (List.Perm.swap _ _ _)⟩

/-! ### Datasets lying on a line -/

lemma sum_map_affine (l : List Point) (m b : ℚ) :
    (l.map fun p => m * p.x + b).sum = m * (l.map Point.x).sum + b * l.length := by
  induction l with
  | nil => simp
  | cons p l ih =>
      simp only [List.map_cons, List.sum_cons, ih, List.length_cons]
      push_cast
      ring

lemma meanY_affine (pts : List Point) (m b : ℚ)
    (h : ∀ p ∈ pts, p.y = m * p.x + b) (hn : pts ≠ []) :
    meanY pts = m * meanX pts + b := by
  have hmap : pts.map Point.y = pts.map fun p => m * p.x + b :=
    List.map_congr_left fun p hp => h p hp
  have hlen : (pts.length : ℚ) ≠ 0 := by
    exact_mod_cast Nat.cast_ne_zero.2 (List.length_pos.2 hn).ne'
  unfold meanY meanX
  rw [hmap, sum_map_affine]
  field_simp

lemma num_denom_affine (pts : List Point) (m b : ℚ)
    (h : ∀ p ∈ pts, p.y = m * p.x + b) (hn : pts ≠ []) :
    num pts = m * denomX pts ∧ denomY pts = m ^ 2 * denomX pts := by
  have hmy := meanY_affine pts m b h hn
  have hdy : ∀ p ∈ pts, p.y - meanY pts = m * (p.x - meanX pts) := by
    intro p hp
    rw [h p hp, hmy]
    ring
  constructor
  · have hmap : (pts.map fun p => (p.x - meanX pts) * (p.y - meanY pts)) =
        pts.map fun p => m * ((p.x - meanX pts) * (p.x - meanX pts)) := by
      apply List.map_congr_left
      intro p hp
      rw [hdy p hp]
      ring
    unfold num denomX
    rw [hmap, List.sum_map_mul_left]
  · have hmap : (pts.map fun p => (p.y - meanY pts) * (p.y - meanY pts)) =
        pts.map fun p => m ^ 2 * ((p.x - meanX pts) * (p.x - meanX pts)) := by
      apply List.map_congr_left
      intro p hp
      rw [hdy p hp]
      ring
    unfold denomY denomX
    rw [hmap, List.sum_map_mul_left]

lemma correlation_constY (pts : List Point) (c : ℚ)
    (h : ∀ p ∈ pts, p.y = c) : correlation pts = 0 := by
  rcases eq_or_ne pts [] with rfl | hn
  · simp [correlation]
  · have h' : ∀ p ∈ pts, p.y = 0 * p.x + c := by
      intro p hp
      rw [h p hp]
      ring
    have hdy0 : denomY pts = 0 := by
      rw [(num_denom_affine pts 0 c h' hn).2]
      ring
    by_cases hlen : pts.length < 2
    · simp [correlation, hlen]
    · simp [correlation, hlen, hdy0]

/-- C3 (amended): on a dataset of at least two points, not all with the
same x-coordinate, lying exactly on the line `y = m·x + b`, `correlation`
returns `1` when `m > 0` and `-1` when `m < 0`; on a constant-y dataset
(`m = 0`) it returns `0` with no extra hypotheses. -/
theorem correlation_on_line (pts : List Point) (m b : ℚ)
    (h : ∀ p ∈ pts, p.y = m * p.x + b) :
    (2 ≤ pts.length → denomX pts ≠ 0 →
      ((0 < m → correlation pts = 1) ∧ (m < 0 → correlation pts = -1))) ∧
    (m = 0 → correlation pts = 0) := by
  constructor
  · intro h2 hdx
    have hn : pts ≠ [] := by
      intro e
      rw [e] at h2
      simp at h2
    obtain ⟨hnum, hdY⟩ := num_denom_affine pts m b h hn
    have hlen : ¬ pts.length < 2 := by omega
    have hdx_pos : 0 < denomX pts := lt_of_le_of_ne (denomX_nonneg pts) (Ne.symm hdx)
    have key : ∀ hm0 : m ≠ 0, correlation pts =
        ((m * denomX pts : ℚ) : ℝ) / |((m * denomX pts : ℚ) : ℝ)| := by
      intro hm0
      have hprod : denomX pts * denomY pts = (m * denomX pts) ^ 2 := by
        rw [hdY]
        ring
      have hne : denomX pts * denomY pts ≠ 0 := by
        rw [hprod]
        exact pow_ne_zero 2 (mul_ne_zero hm0 hdx)
      have hcast : (((denomX pts * denomY pts : ℚ)) : ℝ) =
          ((m * denomX pts : ℚ) : ℝ) ^ 2 := by
        rw [hprod]
        push_cast
        ring
      unfold correlation
      rw [if_neg hlen, if_neg hne, hnum, hcast, Real.sqrt_sq_eq_abs]
    constructor
    · intro hm
      have hpos : (0 : ℝ) < ((m * denomX pts : ℚ) : ℝ) := by
        exact_mod_cast mul_pos hm hdx_pos
      rw [key hm.ne', abs_of_pos hpos, div_self hpos.ne']
    · intro hm
      have hneg : ((m * denomX pts : ℚ) : ℝ) < 0 := by
        exact_mod_cast mul_neg_of_neg_of_pos hm hdx_pos
      rw [key hm.ne, abs_of_neg hneg, div_neg, div_self hneg.ne]
  · intro hm
    apply correlation_constY pts b
    intro p hp
    rw [h p hp, hm]
    ring

/-- Counterexample to C3 as stated: the dataset `(1,2), (1,2)` lies
exactly on the line `y = 1·x + 1`, whose slope is positive, yet
`correlation` returns `0`, not `1`. -/
theorem correlation_on_line_cex :
    (∀ p ∈ ([⟨.gen 0 0, 1, 2⟩, ⟨.gen 0 1, 1, 2⟩] : List Point),
      p.y = 1 * p.x + 1) ∧
    (0 : ℚ) < 1 ∧
    correlation [⟨.gen 0 0, 1, 2⟩, ⟨.gen 0 1, 1, 2⟩] = 0 ∧
    correlation [⟨.gen 0 0, 1, 2⟩, ⟨.gen 0 1, 1, 2⟩] ≠ 1 := by
  have hdx : denomX [⟨.gen 0 0, 1, 2⟩, ⟨.gen 0 1, 1, 2⟩] = 0 := by
    norm_num [denomX, meanX]
  have h0 : correlation [⟨.gen 0 0, 1, 2⟩, ⟨.gen 0 1, 1, 2⟩] = 0 := by
    simp [correlation, hdx]
  refine ⟨?_, by norm_num, h0, by rw [h0]; norm_num⟩
  intro p hp
  fin_cases hp <;> norm_num

/-- Witness for the amended C3 at the dataset `(0,0), (1,2)` on the line
`y = 2·x`. -/
theorem correlation_on_line_witness :
    (∀ p ∈ ([⟨.gen 0 0, 0, 0⟩, ⟨.gen 0 1, 1, 2⟩] : List Point),
      p.y = 2 * p.x + 0) ∧
    2 ≤ ([⟨.gen 0 0, 0, 0⟩, ⟨.gen 0 1, 1, 2⟩] : List Point).length ∧
    denomX [⟨.gen 0 0, 0, 0⟩, ⟨.gen 0 1, 1, 2⟩] ≠ 0 ∧
    (0 : ℚ) < 2 ∧
    correlation [⟨.gen 0 0, 0, 0⟩, ⟨.gen 0 1, 1, 2⟩] = 1 := by
  have hline : ∀ p ∈ ([⟨.gen 0 0, 0, 0⟩, ⟨.gen 0 1, 1, 2⟩] : List Point),
      p.y = 2 * p.x + 0 := by
    intro p hp
    fin_cases hp <;> norm_num
  have hdx : denomX [⟨.gen 0 0, 0, 0⟩, ⟨.gen 0 1, 1, 2⟩] ≠ 0 := by
    norm_num [denomX, meanX]
  exact ⟨hline, by decide, hdx, by norm_num,
    ((correlation_on_line _ 2 0 hline).1 (by decide) hdx).1 (by norm_num)⟩

/-! ### The drag mutation -/

/-- C7: the drag mutation keeps the dataset's length and order, rewrites
the coordinates of exactly the points whose id matches (keeping their
id), leaves every other point untouched, and is the identity when no id
matches. -/
theorem dragPoint_frame (pts : List Point) (i : Ident) (nx ny : ℚ) :
    (dragPoint pts i nx ny).length = pts.length ∧
    (∀ j : ℕ, (dragPoint pts i nx ny)[j]? = (pts[j]?).map fun p =>
      if p.id = i then { p with x := nx, y := ny } else p) ∧
    ((∀ p ∈ pts, p.id ≠ i) → dragPoint pts i nx ny = pts) := by
  refine ⟨by simp [dragPoint], ?_, ?_⟩
  · intro j
    simp [dragPoint, List.getElem?_map]
  · intro h
    have hmap : pts.map (fun p => if p.id = i then { p with x := nx, y := ny } else p) =
        pts.map id := by
      apply List.map_congr_left
      intro p hp
      simp [h p hp]
    simp only [dragPoint, hmap, List.map_id]

/-- Witness for C7: a one-point dataset with a non-matching id is left
unchanged. -/
theorem dragPoint_frame_witness :
    (∀ p ∈ ([⟨.gen 5 0, 1, 2⟩] : List Point), p.id ≠ Ident.gen 5 1) ∧
    dragPoint [⟨.gen 5 0, 1, 2⟩] (Ident.gen 5 1) 3 4 = [⟨.gen 5 0, 1, 2⟩] :=
  ⟨by decide, (dragPoint_frame _ _ _ _).2.2 (by decide)⟩

/-! ### The linear generator -/

/-- C4: for every draw of the timestamp and random streams,
`randomLinearWithCorrelation target sign` returns exactly 20 points; the
i-th (0-based) has `x = i + 1` and
`y = (sign·target)·x + u·(1.7 - 1.5·target)·10 + 10` with `u` the i-th
draw shifted by `0.5`; and `u` lies in `[-1/2, 1/2)` whenever the draw
obeys the `Math.random` contract `0 ≤ rand i < 1`. -/
theorem randomLinearWithCorrelation_shape (target sign : ℚ)
    (hsign : sign = 1 ∨ sign = -1) (h0 : 0 ≤ target) (h1 : target ≤ 1)
    (now : ℕ → ℕ) (rand : ℕ → ℚ)
    (hrand : ∀ i, i < 20 → 0 ≤ rand i ∧ rand i < 1) :
    (randomLinearWithCorrelation target sign now rand).length = 20 ∧
    (∀ i, i < 20 → (randomLinearWithCorrelation target sign now rand)[i]? =
      some ⟨Ident.gen (now i) i, (i : ℚ) + 1,
        (sign * target) * ((i : ℚ) + 1) +
          (rand i - 0.5) * (1.7 - 1.5 * target) * 10 + 10⟩) ∧
    (∀ i, i < 20 → -(1/2) ≤ rand i - 0.5 ∧ rand i - 0.5 < 1/2) := by
  refine ⟨by simp [randomLinearWithCorrelation, randomLinear], ?_, ?_⟩
  · intro i hi
    simp only [randomLinearWithCorrelation, randomLinear, List.getElem?_map,
      List.getElem?_range, hi, if_pos, Option.map_some', Option.some.injEq,
      Point.mk.injEq]
    refine ⟨trivial, by ring, by ring⟩
  · intro i hi
    obtain ⟨ha, hb⟩ := hrand i hi
    constructor <;> linarith

/-- Witness for C4 at target `1/2`, sign `+1`, zero timestamp and draw
streams. -/
theorem randomLinearWithCorrelation_shape_witness :
    ((0 : ℚ) ≤ 1 / 2 ∧ (1 / 2 : ℚ) ≤ 1 ∧ ((1 : ℚ) = 1 ∨ (1 : ℚ) = -1)) ∧
    (randomLinearWithCorrelation (1 / 2) 1 (fun _ => 0) (fun _ => 0)).length = 20 :=
  ⟨⟨by norm_num, by norm_num, Or.inl rfl⟩,
   (randomLinearWithCorrelation_shape (1 / 2) 1 (Or.inl rfl) (by norm_num)
     (by norm_num) (fun _ => 0) (fun _ => 0) (fun i _ => by norm_num)).1⟩

/-! ### The controller state machine -/

/-- C6: in every state, a preset change regenerates through the new
preset's generation path (`Lineare positiva` with sign `+1` and the
current target, `Lineare negativa` with sign `-1`, `Nessuna
correlazione` with the target forced to `0`, an Anscombe preset loading
the fixed dataset), a regenerate request re-runs the path of the current
preset, and regenerating a reference preset is independent of the
timestamp and random draws, hence yields the identical fixed dataset. -/
theorem step_generation_paths (k : String) (t : ℚ) (pts : List Point)
    (n n' : ℕ → ℕ) (r r' : ℕ → ℚ) :
    (step ⟨k, t, pts⟩ (.selectPreset "Lineare positiva") n r).points =
      randomLinearWithCorrelation t 1 n r ∧
    (step ⟨k, t, pts⟩ (.selectPreset "Lineare negativa") n r).points =
      randomLinearWithCorrelation t (-1) n r ∧
    (step ⟨k, t, pts⟩ (.selectPreset "Nessuna correlazione") n r).points =
      randomLinearWithCorrelation 0 1 n r ∧
    (step ⟨k, t, pts⟩ (.selectPreset "Anscombe A") n r).points = anscombeA ∧
    (step ⟨k, t, pts⟩ (.selectPreset "Anscombe B") n r).points = anscombeB ∧
    (step ⟨k, t, pts⟩ (.selectPreset "Anscombe C") n r).points = anscombeC ∧
    (step ⟨k, t, pts⟩ (.selectPreset "Anscombe D") n r).points = anscombeD ∧
    (step ⟨"Lineare positiva", t, pts⟩ .regenerate n r).points =
      randomLinearWithCorrelation t 1 n r ∧
    (step ⟨"Lineare negativa", t, pts⟩ .regenerate n r).points =
      randomLinearWithCorrelation t (-1) n r ∧
    (step ⟨"Nessuna correlazione", t, pts⟩ .regenerate n r).points =
      randomLinearWithCorrelation 0 1 n r ∧
    (step ⟨"Anscombe A", t, pts⟩ .regenerate n r).points = anscombeA ∧
    (step ⟨"Anscombe B", t, pts⟩ .regenerate n r).points = anscombeB ∧
    (step ⟨"Anscombe C", t, pts⟩ .regenerate n r).points = anscombeC ∧
    (step ⟨"Anscombe D", t, pts⟩ .regenerate n r).points = anscombeD ∧
    (step ⟨"Anscombe A", t, pts⟩ .regenerate n r).points =
      (step ⟨"Anscombe A", t, pts⟩ .regenerate n' r').points ∧
    (step ⟨"Anscombe B", t, pts⟩ .regenerate n r).points =
      (step ⟨"Anscombe B", t, pts⟩ .regenerate n' r').points ∧
    (step ⟨"Anscombe C", t, pts⟩ .regenerate n r).points =
      (step ⟨"Anscombe C", t, pts⟩ .regenerate n' r').points ∧
    (step ⟨"Anscombe D", t, pts⟩ .regenerate n r).points =
      (step ⟨"Anscombe D", t, pts⟩ .regenerate n' r').points :=
  ⟨rfl, rfl, rfl, rfl, rfl, rfl, rfl, rfl, rfl, rfl, rfl, rfl, rfl, rfl,
   rfl, rfl, rfl, rfl⟩

/-- C10: only `setTarget` writes the stored slider value — a preset
change, a regenerate request and a drag all keep it; the initial value
is `0.8`; and switching to a reference preset and back to a linear
preset regenerates with the target stored before the switch. -/
theorem correlationValue_frame (s : AppState) (k : String) (v : ℚ)
    (i : Ident) (nx ny : ℚ) (n n' : ℕ → ℕ) (r r' : ℕ → ℚ) :
    (step s (.selectPreset k) n r).correlationValue = s.correlationValue ∧
    (step s .regenerate n r).correlationValue = s.correlationValue ∧
    (step s (.drag i nx ny) n r).correlationValue = s.correlationValue ∧
    (step s (.setTarget v) n r).correlationValue = v ∧
    (initState n r).correlationValue = 0.8 ∧
    (step (step s (.selectPreset "Anscombe A") n r)
        (.selectPreset "Lineare positiva") n' r').points =
      randomLinearWithCorrelation s.correlationValue 1 n' r' :=
  ⟨rfl, rfl, rfl, rfl, rfl, rfl⟩

/-! ### Ids of generated points -/

/-- C9 (amended): within one generated dataset the ids are pairwise
distinct (the index component differs), and the ids of two generated
datasets are disjoint provided every timestamp drawn by the first
generation differs from every timestamp drawn by the second. Ids are
built from `Date.now()` plus the index, so two generations inside the
same millisecond can collide (see the counterexample). -/
theorem randomLinear_ids (slope noise slope' noise' : ℚ)
    (n n' : ℕ → ℕ) (r r' : ℕ → ℚ)
    (h : ∀ i, i < 20 → ∀ j, j < 20 → n i ≠ n' j) :
    ((randomLinear slope noise n r).map Point.id).Nodup ∧
    List.Disjoint ((randomLinear slope noise n r).map Point.id)
      ((randomLinear slope' noise' n' r').map Point.id) := by
  have hmap : ∀ (s ns : ℚ) (m : ℕ → ℕ) (q : ℕ → ℚ),
      (randomLinear s ns m q).map Point.id =
        (List.range 20).map fun i => Ident.gen (m i) i := by
    intro s ns m q
    simp [randomLinear, List.map_map, Function.comp]
  constructor
  · rw [hmap]
    refine List.Nodup.map_on ?_ (List.nodup_range 20)
    intro x _ y _ hxy
    injection hxy
  · intro a ha hb
    rw [hmap] at ha hb
    simp only [List.mem_map, List.mem_range] at ha hb
    obtain ⟨i, hi, rfl⟩ := ha
    obtain ⟨j, hj, heq⟩ := hb
    injection heq with h1 h2
    exact h i hi j hj h1.symm

/-- Counterexample to C9 as stated: two generations whose `Date.now()`
draws coincide (the same millisecond) produce colliding ids — the first
point of each dataset here carries the very same id, although the
second generation used different parameters and random draws. -/
theorem randomLinear_ids_cex :
    ((randomLinearWithCorrelation 0.8 1 (fun _ => 0) (fun _ => 0)).map
        Point.id)[0]? =
      ((randomLinearWithCorrelation 0.3 1 (fun _ => 0) (fun _ => 1 / 2)).map
        Point.id)[0]? ∧
    ((randomLinearWithCorrelation 0.8 1 (fun _ => 0) (fun _ => 0)).map
        Point.id)[0]? = some (Ident.gen 0 0) := by
  constructor <;> rfl

/-- Witness for the amended C9 with two generations whose timestamp
draws are disjoint. -/
theorem randomLinear_ids_witness :
    (∀ i, i < 20 → ∀ j, j < 20 → (fun i : ℕ => i) i ≠ (fun j => 100 + j) j) ∧
    List.Disjoint
      ((randomLinear 1 1 (fun i => i) (fun _ => 0)).map Point.id)
      ((randomLinear 1 1 (fun j => 100 + j) (fun _ => 0)).map Point.id) :=
  ⟨by decide, (randomLinear_ids 1 1 1 1 _ _ _ _ (by decide)).2⟩

/-! ### Numeric bounds for the Anscombe correlations -/

lemma div_sqrt_bounds {x D a b : ℝ} (hD : 0 < D) (ha : 0 ≤ a) (hx : 0 ≤ x)
    (hb : 0 ≤ b) (h1 : a ^ 2 * D ≤ x ^ 2) (h2 : x ^ 2 ≤ b ^ 2 * D) :
    a ≤ x / Real.sqrt D ∧ x / Real.sqrt D ≤ b := by
  have hs : 0 < Real.sqrt D := Real.sqrt_pos.2 hD
  have hs2 : Real.sqrt D ^ 2 = D := Real.sq_sqrt hD.le
  constructor
  · rw [le_div_iff hs]
    refine le_of_pow_le_pow_left two_ne_zero hx ?_
    calc (a * Real.sqrt D) ^ 2 = a ^ 2 * D := by rw [mul_pow, hs2]
      _ ≤ x ^ 2 := h1
  · rw [div_le_iff hs]
    refine le_of_pow_le_pow_left two_ne_zero (by positivity) ?_
    calc x ^ 2 ≤ b ^ 2 * D := h2
      _ = (b * Real.sqrt D) ^ 2 := by rw [mul_pow, hs2]

lemma correlation_eval (pts : List Point) (q D : ℚ) (hq : num pts = q)
    (hD : denomX pts * denomY pts = D) (hDne : D ≠ 0)
    (hlen : ¬ pts.length < 2) :
    correlation pts = (q : ℝ) / Real.sqrt ((D : ℚ) : ℝ) := by
  unfold correlation
  rw [if_neg hlen, hD, hq, if_neg hDne]

lemma anscombeA_corr_bounds :
    (0.816 : ℝ) ≤ correlation anscombeA ∧ correlation anscombeA ≤ 0.817 := by
  have he : correlation anscombeA =
      ((5501 / 100 : ℚ) : ℝ) / Real.sqrt ((1134999 / 250 : ℚ) : ℝ) :=
    correlation_eval _ _ _ (by norm_num [num, meanX, meanY, anscombeA])
      (by norm_num [denomX, denomY, meanX, meanY, anscombeA])
      (by norm_num) (by decide)
  rw [he]
  push_cast
  exact div_sqrt_bounds (by norm_num) (by norm_num) (by norm_num) (by norm_num)
    (by norm_num) (by norm_num)

lemma anscombeB_corr_bounds :
    (0.816 : ℝ) ≤ correlation anscombeB ∧ correlation anscombeB ≤ 0.817 := by
  have he : correlation anscombeB =
      ((55 : ℚ) : ℝ) / Real.sqrt ((567549 / 125 : ℚ) : ℝ) :=
    correlation_eval _ _ _ (by norm_num [num, meanX, meanY, anscombeB])
      (by norm_num [denomX, denomY, meanX, meanY, anscombeB])
      (by norm_num) (by decide)
  rw [he]
  push_cast
  exact div_sqrt_bounds (by norm_num) (by norm_num) (by norm_num) (by norm_num)
    (by norm_num) (by norm_num)

lemma anscombeC_corr_bounds :
    (0.816 : ℝ) ≤ correlation anscombeC ∧ correlation anscombeC ≤ 0.817 := by
  have he : correlation anscombeC =
      ((5497 / 100 : ℚ) : ℝ) / Real.sqrt ((2267441 / 500 : ℚ) : ℝ) :=
    correlation_eval _ _ _ (by norm_num [num, meanX, meanY, anscombeC])
      (by norm_num [denomX, denomY, meanX, meanY, anscombeC])
      (by norm_num) (by decide)
  rw [he]
  push_cast
  exact div_sqrt_bounds (by norm_num) (by norm_num) (by norm_num) (by norm_num)
    (by norm_num) (by norm_num)

lemma anscombeD_corr_bounds :
    (0.816 : ℝ) ≤ correlation anscombeD ∧ correlation anscombeD ≤ 0.817 := by
  have he : correlation anscombeD =
      ((5499 / 100 : ℚ) : ℝ) / Real.sqrt ((2267787 / 500 : ℚ) : ℝ) :=
    correlation_eval _ _ _ (by norm_num [num, meanX, meanY, anscombeD])
      (by norm_num [denomX, denomY, meanX, meanY, anscombeD])
      (by norm_num) (by decide)
  rw [he]
  push_cast
  exact div_sqrt_bounds (by norm_num) (by norm_num) (by norm_num) (by norm_num)
    (by norm_num) (by norm_num)

/-- C5: each of the four reference datasets has exactly 11 points, every
one of the four correlations lies within 0.01 of 0.816, and any two of
them differ by at most 0.01. -/
theorem anscombe_correlations :
    (anscombe "A").length = 11 ∧ (anscombe "B").length = 11 ∧
    (anscombe "C").length = 11 ∧ (anscombe "D").length = 11 ∧
    |correlation (anscombe "A") - 0.816| ≤ 0.01 ∧
    |correlation (anscombe "B") - 0.816| ≤ 0.01 ∧
    |correlation (anscombe "C") - 0.816| ≤ 0.01 ∧
    |correlation (anscombe "D") - 0.816| ≤ 0.01 ∧
    |correlation (anscombe "A") - correlation (anscombe "B")| ≤ 0.01 ∧
    |correlation (anscombe "A") - correlation (anscombe "C")| ≤ 0.01 ∧
    |correlation (anscombe "A") - correlation (anscombe "D")| ≤ 0.01 ∧
    |correlation (anscombe "B") - correlation (anscombe "C")| ≤ 0.01 ∧
    |correlation (anscombe "B") - correlation (anscombe "D")| ≤ 0.01 ∧
    |correlation (anscombe "C") - correlation (anscombe "D")| ≤ 0.01 := by
  obtain ⟨a1, a2⟩ := anscombeA_corr_bounds
  obtain ⟨b1, b2⟩ := anscombeB_corr_bounds
  obtain ⟨c1, c2⟩ := anscombeC_corr_bounds
  obtain ⟨d1, d2⟩ := anscombeD_corr_bounds
  have eA : anscombe "A" = anscombeA := rfl
  have eB : anscombe "B" = anscombeB := rfl
  have eC : anscombe "C" = anscombeC := rfl
  have eD : anscombe "D" = anscombeD := rfl
  rw [eA, eB, eC, eD]
  refine ⟨rfl, rfl, rfl, rfl, ?_, ?_, ?_, ?_, ?_, ?_, ?_, ?_, ?_, ?_⟩ <;>
    (rw [abs_le]; constructor <;> linarith)
